import Mathlib

/-!
Verification of the paper-radar core against its specification.

The definitions below are a shallow embedding of the Python sources:
`src/agents/base.py` (ResilientLLMClient), `src/agents/filter_agent.py`
(FilterAgent), `src/agents/summary_agent.py` (SummaryAgent) and
`src/paper_history.py` (PaperHistory).  Pure Python functions become Lean
functions; the retry/fallback loop becomes explicit state passing that also
records the trace of attempts; code that can raise returns `Option`.
-/

set_option maxRecDepth 4000

namespace PaperRadar

/-! ## ResilientLLMClient (src/agents/base.py)

`_call_with_fallback` iterates over providers in order; for each provider it
runs attempts `1 .. max_retries`.  A successful attempt returns immediately;
a failed attempt stores the exception in `last_error`.  After all providers
are exhausted the stored `last_error` is re-raised (`raise last_error`); with
no attempt ever made `last_error` is still `None` and `raise None` surfaces
as a `TypeError`.  The outcome of each underlying call is abstracted as a
function of the provider index (0-based) and attempt number (1-based). -/

/-- Outcome of one underlying provider call: either the response text or the
exception message raised by the attempt. -/
inductive Outcome where
  | ok (result : String)
  | err (msg : String)

/-- An oracle describing what each attempt of each provider would do:
`behavior i a` is the outcome of attempt `a` (1-based) on provider `i`
(0-based). -/
abbrev Behavior : Type := Nat → Nat → Outcome

/-- The list of (provider, attempt) pairs actually executed, in order. -/
abbrev Trace : Type := List (Nat × Nat)

/-- The inner `for attempt in range(1, self.max_retries + 1)` loop of
`_call_with_fallback`, over an explicit list of attempt numbers.  Returns
(result if some attempt succeeded, final `last_error`, executed attempts). -/
def tryAttempts (behavior : Behavior) (i : Nat) :
    List Nat → Option String → Option String × Option String × Trace
  | [], lastError => (none, lastError, [])
  | a :: rest, lastError =>
    match behavior i a with
    | .ok r => (some r, lastError, [(i, a)])
    | .err e =>
      let step := tryAttempts behavior i rest (some e)
      (step.1, step.2.1, (i, a) :: step.2.2)

/-- The outer `for i, client in enumerate(self.clients)` loop of
`_call_with_fallback`, over an explicit list of provider indices. -/
def tryProviders (behavior : Behavior) (maxRetries : Nat) :
    List Nat → Option String → Option String × Option String × Trace
  | [], lastError => (none, lastError, [])
  | i :: rest, lastError =>
    match tryAttempts behavior i (List.range' 1 maxRetries) lastError with
    | (some r, le, tr) => (some r, le, tr)
    | (none, le, tr) =>
      let step := tryProviders behavior maxRetries rest le
      (step.1, step.2.1, tr ++ step.2.2)

/-- `ResilientLLMClient._call_with_fallback` over `numProviders` clients with
`max_retries = maxRetries`, starting from `last_error = None`. -/
def callWithFallback (behavior : Behavior) (numProviders maxRetries : Nat) :
    Option String × Option String × Trace :=
  tryProviders behavior maxRetries (List.range numProviders) none

/-- How a `_call_with_fallback` invocation terminates: a returned response,
a re-raised provider exception (`raise last_error` with an exception stored),
or the degenerate `raise None` which Python surfaces as a `TypeError`. -/
inductive CallResult where
  | success (r : String)
  | failure (e : String)
  | typeError

/-- Final result of `_call_with_fallback` paired with the executed trace. -/
def fallbackRun (behavior : Behavior) (numProviders maxRetries : Nat) :
    CallResult × Trace :=
  match callWithFallback behavior numProviders maxRetries with
  | (some r, _, tr) => (.success r, tr)
  | (none, some e, tr) => (.failure e, tr)
  | (none, none, tr) => (.typeError, tr)

/-- `ResilientLLMClient.chat` delegates directly to `_call_with_fallback`. -/
def chatRun (behavior : Behavior) (numProviders maxRetries : Nat) :
    CallResult × Trace :=
  fallbackRun behavior numProviders maxRetries

/-- `ResilientLLMClient.chat_with_pdf` delegates directly to
`_call_with_fallback` (only the dispatched method name differs, which the
behavior oracle abstracts). -/
def chatWithPdfRun (behavior : Behavior) (numProviders maxRetries : Nat) :
    CallResult × Trace :=
  fallbackRun behavior numProviders maxRetries

/-- The attempts a single provider `i` performs when it exhausts all of
`1 .. R`: `(i, 1), (i, 2), ..., (i, R)`. -/
def providerTrace (i R : Nat) : Trace :=
  (List.range' 1 R).map (fun a => (i, a))

/-- The full trace of a call where every provider in `0 .. N-1` exhausts all
`R` attempts, in provider order. -/
def fullTrace (N R : Nat) : Trace :=
  (List.range N).flatMap (fun i => providerTrace i R)

/-! ## JSON values

Model of the Python objects produced by `json.loads`: dicts are association
lists in insertion order (keys unique), numbers keep their source lexeme
(their numeric value is never consumed by this code beyond truthiness). -/

inductive JsonVal where
  | null
  | bool (b : Bool)
  | num (lexeme : String)
  | str (s : String)
  | arr (elems : List JsonVal)
  | obj (fields : List (String × JsonVal))

/-- First-match association-list lookup; Python dicts have unique keys, so
this is dict indexing. -/
def lookupKey {α : Type} : List (String × α) → String → Option α
  | [], _ => none
  | (k', v) :: rest, k => if k' = k then some v else lookupKey rest k

/-- Python `dict.get(k, d)` on a dict modelled as an association list. -/
def getD (fields : List (String × JsonVal)) (k : String) (d : JsonVal) : JsonVal :=
  match lookupKey fields k with
  | some v => v
  | none => d

/-- Python dict assignment `m[k] = v`: updates the first binding of `k` in
place, or appends a new binding at the end. -/
def setKey {α : Type} : List (String × α) → String → α → List (String × α)
  | [], k, v => [(k, v)]
  | (k', v') :: rest, k, v =>
    if k' = k then (k, v) :: rest else (k', v') :: setKey rest k v

/-- Whether a JSON number lexeme denotes zero (for Python truthiness): true
iff the mantissa (everything before any exponent marker) consists only of
sign, zeros and a decimal point.  `NaN` and `Infinity` are nonzero. -/
def numIsZero (lexeme : String) : Bool :=
  let mantissa := lexeme.data.takeWhile (fun c => c ≠ 'e' && c ≠ 'E')
  mantissa.all (fun c => c = '0' || c = '.' || c = '-')

/-- Python truthiness of a JSON-decoded value. -/
def truthy : JsonVal → Bool
  | .null => false
  | .bool b => b
  | .num lexeme => !numIsZero lexeme
  | .str s => !s.isEmpty
  | .arr xs => !xs.isEmpty
  | .obj fs => !fs.isEmpty

/-- Python `v == s` where `s` is a `str`: true only for an equal string. -/
def pyEqStr (v : JsonVal) (s : String) : Bool :=
  match v with
  | .str t => t = s
  | _ => false

/-- The Python type name of a JSON-decoded value (as it appears in an
`AttributeError` message). -/
def pyTypeName : JsonVal → String
  | .null => "NoneType"
  | .bool _ => "bool"
  | .num lexeme =>
    if lexeme.data.any (fun c => c = '.' || c = 'e' || c = 'E' || c = 'n' || c = 'I')
    then "float" else "int"
  | .str _ => "str"
  | .arr _ => "list"
  | .obj _ => "dict"

/-! ## Model of Python `json.loads`

Recursive-descent JSON parser over the character list, with a fuel parameter
bounding nesting depth (fuel = input length + 1 suffices, since each nesting
level consumes at least one character).  Mirrors Python's default decoder:
JSON whitespace, strict strings (unescaped control characters rejected),
`NaN` / `Infinity` / `-Infinity` accepted, duplicate object keys resolved
last-wins, trailing data rejected.  Deviation: a lone surrogate `\uXXXX`
escape (which Python would keep as a lone surrogate character) is rejected,
because Lean's `Char` cannot represent it. -/

/-- JSON whitespace accepted by Python's decoder. -/
def jsonWs (c : Char) : Bool :=
  c = ' ' || c = '\t' || c = '\n' || c = '\r'

/-- Skip JSON whitespace. -/
def skipWs : List Char → List Char
  | [] => []
  | c :: rest => if jsonWs c then skipWs rest else c :: rest

/-- Value of a hex digit (code points 0-9, a-f, A-F). -/
def hexVal (c : Char) : Option Nat :=
  let n := c.toNat
  if 48 ≤ n && n ≤ 57 then some (n - 48)
  else if 97 ≤ n && n ≤ 102 then some (n - 87)
  else if 65 ≤ n && n ≤ 70 then some (n - 55)
  else none

/-- Value of a four-digit hex escape. -/
def hex4 (a b c d : Char) : Option Nat :=
  match hexVal a, hexVal b, hexVal c, hexVal d with
  | some x, some y, some z, some w => some (((x * 16 + y) * 16 + z) * 16 + w)
  | _, _, _, _ => none

/-- Body of a JSON string after the opening quote: returns the decoded
characters and the input after the closing quote. -/
def parseStringBody (acc : List Char) : List Char → Option (List Char × List Char)
  | [] => none
  | c :: rest =>
    if c = '"' then some (acc, rest)
    else if c = '\\' then
      match rest with
      | [] => none
      | e :: r2 =>
        if e = '"' then parseStringBody (acc ++ ['"']) r2
        else if e = '\\' then parseStringBody (acc ++ ['\\']) r2
        else if e = '/' then parseStringBody (acc ++ ['/']) r2
        else if e = 'b' then parseStringBody (acc ++ ['\x08']) r2
        else if e = 'f' then parseStringBody (acc ++ ['\x0c']) r2
        else if e = 'n' then parseStringBody (acc ++ ['\n']) r2
        else if e = 'r' then parseStringBody (acc ++ ['\r']) r2
        else if e = 't' then parseStringBody (acc ++ ['\t']) r2
        else if e = 'u' then
          match r2 with
          | h1 :: h2 :: h3 :: h4 :: r3 =>
            match hex4 h1 h2 h3 h4 with
            | none => none
            | some n =>
              if n < 0xD800 || 0xE000 ≤ n then
                parseStringBody (acc ++ [Char.ofNat n]) r3
              else if n < 0xDC00 then
                -- high surrogate: must pair with a following low surrogate
                match r3 with
                | '\\' :: 'u' :: g1 :: g2 :: g3 :: g4 :: r4 =>
                  match hex4 g1 g2 g3 g4 with
                  | none => none
                  | some m =>
                    if 0xDC00 ≤ m && m < 0xE000 then
                      let codepoint := (n - 0xD800) * 1024 + (m - 0xDC00) + 0x10000
                      parseStringBody (acc ++ [Char.ofNat codepoint]) r4
                    else none
                | _ => none
              else none
          | _ => none
        else none
    else if c.toNat < 0x20 then none
    else parseStringBody (acc ++ [c]) rest

/-- Longest prefix of decimal digits. -/
def spanDigits : List Char → List Char × List Char
  | [] => ([], [])
  | c :: rest =>
    if c.isDigit then
      let step := spanDigits rest
      (c :: step.1, step.2)
    else ([], c :: rest)

/-- Consume a literal word, or fail. -/
def expectLit : List Char → List Char → Option (List Char)
  | [], cs => some cs
  | l :: ls, c :: cs => if c = l then expectLit ls cs else none
  | _ :: _, [] => none

/-- A JSON number starting at the current position (first char is `-` or a
digit, or the start of `-Infinity`); returns its lexeme and the rest.
Matches Python's `NUMBER_RE`: `-?(0|[1-9]\d*)(\.\d+)?([eE][+-]?\d+)?`. -/
def parseNumber (cs : List Char) : Option (String × List Char) :=
  let withSign : List Char × List Char :=
    match cs with
    | '-' :: r => (['-'], r)
    | _ => ([], cs)
  match withSign.2 with
  | 'I' :: r1 =>
    -- `-Infinity` (bare `Infinity` is handled at the value level)
    if withSign.1.isEmpty then none
    else
      match expectLit ['n', 'f', 'i', 'n', 'i', 't', 'y'] r1 with
      | some r2 => some ("-Infinity", r2)
      | none => none
  | '0' :: r1 =>
    let intPart := withSign.1 ++ ['0']
    parseNumTail intPart r1
  | c :: r1 =>
    if c.isDigit then
      let digits := spanDigits r1
      parseNumTail (withSign.1 ++ [c] ++ digits.1) digits.2
    else none
  | [] => none
where
  /-- Optional fraction and exponent after the integer part. -/
  parseNumTail (intPart : List Char) (cs : List Char) : Option (String × List Char) :=
    let afterFrac : List Char × List Char :=
      match cs with
      | '.' :: d :: r =>
        if d.isDigit then
          let digits := spanDigits r
          (['.'] ++ [d] ++ digits.1, digits.2)
        else ([], cs)
      | _ => ([], cs)
    let afterExp : List Char × List Char :=
      match afterFrac.2 with
      | e :: r =>
        if e = 'e' || e = 'E' then
          match r with
          | s :: r2 =>
            if s = '+' || s = '-' then
              match r2 with
              | d :: r3 =>
                if d.isDigit then
                  let digits := spanDigits r3
                  ([e] ++ [s] ++ [d] ++ digits.1, digits.2)
                else ([], afterFrac.2)
              | [] => ([], afterFrac.2)
            else if s.isDigit then
              let digits := spanDigits r2
              ([e] ++ [s] ++ digits.1, digits.2)
            else ([], afterFrac.2)
          | [] => ([], afterFrac.2)
        else ([], afterFrac.2)
      | [] => ([], afterFrac.2)
    some (String.mk (intPart ++ afterFrac.1 ++ afterExp.1), afterExp.2)

mutual

/-- One JSON value (whitespace before it allowed); returns it and the rest. -/
def parseVal : Nat → List Char → Option (JsonVal × List Char)
  | 0, _ => none
  | fuel + 1, cs =>
    match skipWs cs with
    | [] => none
    | c :: rest =>
      if c = '\x7b' then
        match skipWs rest with
        | '\x7d' :: r2 => some (.obj [], r2)
        | r2 => parseMembers fuel [] r2
      else if c = '[' then
        match skipWs rest with
        | ']' :: r2 => some (.arr [], r2)
        | r2 => parseElems fuel [] r2
      else if c = '"' then
        match parseStringBody [] rest with
        | some (chars, r2) => some (.str (String.mk chars), r2)
        | none => none
      else if c = 't' then
        match expectLit ['r', 'u', 'e'] rest with
        | some r2 => some (.bool true, r2)
        | none => none
      else if c = 'f' then
        match expectLit ['a', 'l', 's', 'e'] rest with
        | some r2 => some (.bool false, r2)
        | none => none
      else if c = 'n' then
        match expectLit ['u', 'l', 'l'] rest with
        | some r2 => some (.null, r2)
        | none => none
      else if c = 'N' then
        match expectLit ['a', 'N'] rest with
        | some r2 => some (.num "NaN", r2)
        | none => none
      else if c = 'I' then
        match expectLit ['n', 'f', 'i', 'n', 'i', 't', 'y'] rest with
        | some r2 => some (.num "Infinity", r2)
        | none => none
      else if c = '-' || c.isDigit then
        match parseNumber (c :: rest) with
        | some (lexeme, r2) => some (.num lexeme, r2)
        | none => none
      else none

/-- Members of a JSON object after `{` (first key expected; `{}` handled by
the caller).  Duplicate keys overwrite (Python dict semantics). -/
def parseMembers : Nat → List (String × JsonVal) → List Char →
    Option (JsonVal × List Char)
  | 0, _, _ => none
  | fuel + 1, acc, cs =>
    match skipWs cs with
    | '"' :: rest =>
      match parseStringBody [] rest with
      | none => none
      | some (keyChars, r2) =>
        match skipWs r2 with
        | ':' :: r3 =>
          match parseVal fuel r3 with
          | none => none
          | some (v, r4) =>
            let acc' := setKey acc (String.mk keyChars) v
            match skipWs r4 with
            | ',' :: r5 => parseMembers fuel acc' r5
            | '\x7d' :: r5 => some (.obj acc', r5)
            | _ => none
        | _ => none
    | _ => none

/-- Elements of a JSON array after `[` (first element expected; `[]` handled
by the caller). -/
def parseElems : Nat → List JsonVal → List Char → Option (JsonVal × List Char)
  | 0, _, _ => none
  | fuel + 1, acc, cs =>
    match parseVal fuel cs with
    | none => none
    | some (v, r2) =>
      match skipWs r2 with
      | ',' :: r3 => parseElems fuel (acc ++ [v]) r3
      | ']' :: r3 => some (.arr (acc ++ [v]), r3)
      | _ => none

end

/-- Python `json.loads`: parse one JSON value from the whole text; trailing
non-whitespace is an error. -/
def jsonLoads (s : String) : Option JsonVal :=
  match parseVal (s.data.length + 1) s.data with
  | some (v, rest) =>
    match skipWs rest with
    | [] => some v
    | _ :: _ => none
  | none => none

/-! ## FilterAgent._parse_response (src/agents/filter_agent.py)

Strategy 2 is `re.search(r"```(?:json)?\s*(\{.*?\})\s*```", response, re.DOTALL)`
and strategy 3 is `re.search(r"\{[^{}]*\}", response, re.DOTALL)`.  Both are
modelled as direct string scanners with Python `re.search` semantics: start
positions are tried left to right, and at a given start the pattern is
deterministic (the optional `json` tag, the greedy `\s*` runs and the lazy
`.*?` never need backtracking because their character sets are disjoint from
what must follow). -/

/-- Python regex `\s` over ASCII (re module whitespace). -/
def pySpace (c : Char) : Bool :=
  c = ' ' || c = '\t' || c = '\n' || c = '\r' || c = '\x0b' || c = '\x0c'

/-- Greedy `\s*`. -/
def dropPySpaces : List Char → List Char
  | [] => []
  | c :: rest => if pySpace c then dropPySpaces rest else c :: rest

/-- Consume an exact literal, or fail (used for "```" and "json"). -/
def dropLit : List Char → List Char → Option (List Char)
  | [], cs => some cs
  | l :: ls, c :: cs => if c = l then dropLit ls cs else none
  | _ :: _, [] => none

/-- Does `\s*` followed by a closing fence match here? -/
def fenceCloses (cs : List Char) : Bool :=
  match dropLit ['`', '`', '`'] (dropPySpaces cs) with
  | some _ => true
  | none => false

/-- The lazy `.*?\}` of strategy 2: consume as few characters as possible up
to a `}` that is followed by `\s*` and a closing fence; returns the body
between the braces. -/
def lazyBody (acc : List Char) : List Char → Option (List Char)
  | [] => none
  | c :: rest =>
    if c = '\x7d' && fenceCloses rest then some acc.reverse
    else lazyBody (c :: acc) rest

/-- Strategy 2 at a fixed start position: literal "```", optional "json",
`\s*`, then the lazily matched group `\{.*?\}`. -/
def fencedAt (cs : List Char) : Option (List Char) :=
  match dropLit ['`', '`', '`'] cs with
  | none => none
  | some r1 =>
    let r2 :=
      match dropLit ['j', 's', 'o', 'n'] r1 with
      | some r => r
      | none => r1
    match dropPySpaces r2 with
    | '\x7b' :: r3 =>
      match lazyBody [] r3 with
      | some body => some ('\x7b' :: (body ++ ['\x7d']))
      | none => none
    | _ => none

/-- `re.search` for strategy 2: leftmost start position that matches; yields
capture group 1 (the brace-delimited text). -/
def fencedSearch : List Char → Option (List Char)
  | [] => none
  | c :: rest =>
    match fencedAt (c :: rest) with
    | some g => some g
    | none => fencedSearch rest

/-- `[^\x7b\x7d]*\x7d` after an opening brace: the inner text if the very
next brace character is a closing one. -/
def braceInner : List Char → Option (List Char)
  | [] => none
  | c :: rest =>
    if c = '\x7d' then some []
    else if c = '\x7b' then none
    else
      match braceInner rest with
      | some inner => some (c :: inner)
      | none => none

/-- `re.search` for strategy 3: the first brace-delimited substring that
contains no nested braces (full match, group 0). -/
def braceSearch : List Char → Option (List Char)
  | [] => none
  | c :: rest =>
    if c = '\x7b' then
      match braceInner rest with
      | some inner => some ('\x7b' :: (inner ++ ['\x7d']))
      | none => braceSearch rest
    else braceSearch rest

/-- `FilterAgent._parse_response`: try the whole text as JSON; then the
contents of a fenced code block; then the first nested-brace-free
brace-delimited substring.  Only the first regex match of each strategy is
ever handed to `json.loads`. -/
def parseResponse (response : String) : Option JsonVal :=
  match jsonLoads response with
  | some v => some v
  | none =>
    let fromBrace : Option JsonVal :=
      match braceSearch response.data with
      | some g => jsonLoads (String.mk g)
      | none => none
    match fencedSearch response.data with
    | some g =>
      match jsonLoads (String.mk g) with
      | some v => some v
      | none => fromBrace
    | none => fromBrace

/-! ## FilterAgent.filter_paper / filter_papers

`models/paper.py` is not present under `src/`; `FilterResult` is therefore
modelled from the spec: a boolean match flag, the matched topic names, a
relevance tier and a free-text justification (document reference omitted —
it is threaded through unchanged).  The `matched` flag stores the Python
truth value of the final `matched` variable. -/

structure FilterResult where
  matched : Bool
  matched_keywords : JsonVal
  relevance : JsonVal
  reason : JsonVal

/-- Lines 134-147 of `filter_agent.py`, applied to a successfully parsed
dict: read `matched` (default `False`) and `relevance` (default `"low"`),
normalize `matched` to `False` when it is truthy and `relevance == "low"`,
and build the `FilterResult`. -/
def classifyParsed (fields : List (String × JsonVal)) : FilterResult :=
  let matchedRaw := getD fields "matched" (.bool false)
  let relevance := getD fields "relevance" (.str "low")
  let matchedFinal :=
    if truthy matchedRaw && pyEqStr relevance "low" then JsonVal.bool false
    else matchedRaw
  { matched := truthy matchedFinal
    matched_keywords := getD fields "matched_keywords" (.arr [])
    relevance := relevance
    reason := getD fields "reason" (.str "") }

/-- `FilterAgent.filter_paper`, with the underlying `chat` call abstracted
as its outcome (`.ok response` or `.error message`).  Every branch returns a
`FilterResult`; the `except` at the stage boundary also catches the
`AttributeError` raised by `result.get` when the parsed JSON value is not a
dict. -/
def filter_paper (chatOutcome : Except String String) : FilterResult :=
  match chatOutcome with
  | .error e =>
    { matched := false
      matched_keywords := .arr []
      relevance := .str "low"
      reason := .str ("Error: " ++ e) }
  | .ok response =>
    match parseResponse response with
    | none =>
      { matched := false
        matched_keywords := .arr []
        relevance := .str "low"
        reason := .str "Failed to parse LLM response" }
    | some (.obj fields) => classifyParsed fields
    | some v =>
      { matched := false
        matched_keywords := .arr []
        relevance := .str "low"
        reason := .str ("Error: '" ++ pyTypeName v ++ "' object has no attribute 'get'") }

/-- `FilterAgent.filter_papers`: process documents strictly in order, keep
only matched results. -/
def filter_papers : List (Except String String) → List FilterResult
  | [] => []
  | o :: rest =>
    let r := filter_paper o
    if r.matched then r :: filter_papers rest else filter_papers rest

/-! ## SummaryAgent (src/agents/summary_agent.py)

`models/paper.py` is not present under `src/`; `PaperAnalysis` is modelled
from the spec: a success flag plus the structured fields the summary stage
reads (id, title, authors, affiliations, tldr, contributions, innovations,
methodology). -/

structure PaperAnalysis where
  arxiv_id : String
  title : String
  authors : List String
  affiliations : List String
  tldr : String
  contributions : List String
  innovations : List String
  methodology : String
  success : Bool

/-- `SummaryAgent._format_paper_analysis`. -/
def format_paper_analysis (a : PaperAnalysis) : String :=
  let authors_str :=
    String.intercalate ", " (a.authors.take 3) ++
      (if a.authors.length > 3 then " et al." else "")
  let affiliations_str :=
    if a.affiliations.isEmpty then "未提取"
    else String.intercalate ", " (a.affiliations.take 2)
  let contributions_str :=
    String.intercalate "\n" ((a.contributions.take 3).map (fun c => "  - " ++ c))
  let innovations_str :=
    if a.innovations.isEmpty then "未提取"
    else String.intercalate "; " (a.innovations.take 2)
  let methodology_str :=
    if a.methodology.isEmpty then "未提取" else a.methodology.take 200
  "### " ++ a.title ++ "\n- **arXiv ID**: " ++ a.arxiv_id ++
    "\n- **作者**: " ++ authors_str ++
    "\n- **机构**: " ++ affiliations_str ++
    "\n- **TLDR**: " ++ a.tldr ++
    "\n- **主要贡献**:\n" ++ contributions_str ++
    "\n- **创新点**: " ++ innovations_str ++
    "\n- **方法**: " ++ methodology_str ++ "\n"

/-- `SummaryAgent._format_papers_analysis`: number the analyses from 1 with
`enumerate`, keeping only the blocks of successful ones (an unsuccessful
entry still consumes its index). -/
def format_papers_analysis (analyses : List PaperAnalysis) : String :=
  String.intercalate "\n"
    ((List.enumFrom 1 analyses).filterMap (fun p =>
      if p.2.success then
        some ("## 论文 " ++ toString p.1 ++ "\n" ++ format_paper_analysis p.2)
      else none))

/-- `SummaryAgent.SUMMARY_PROMPT.format(keyword=…, papers_analysis=…,
language=…)`. -/
def mkSummaryPrompt (keyword papers_analysis language : String) : String :=
  "你是一位AI领域的资深研究顾问。请基于以下今日arXiv新论文的分析结果，撰写「" ++ keyword ++
    "」领域的每日研究进展总结。\n\n## 今日该领域相关论文分析:\n\n" ++ papers_analysis ++
    "\n\n---\n\n请撰写一份简洁有力的领域进展总结（使用" ++ language ++
    "，300-500字）：\n\n1. **今日概览**: 简述今日该领域发表的论文数量和整体趋势\n\n" ++
    "2. **重点突破**: 最值得关注的1-2项研究及其意义（请使用论文编号引用，如\"论文1\"、\"论文3\"）\n\n" ++
    "3. **技术趋势**: 观察到的技术方向或方法论趋势\n\n" ++
    "4. **值得跟进**: 建议深入阅读的论文及原因（请使用论文编号引用）\n\n" ++
    "请直接输出总结内容，使用 Markdown 格式，不需要 JSON。在引用论文时，请使用论文编号（如\"论文1\"、\"论文2\"），方便读者与下方论文列表对照。"

/-- The fixed placeholder returned when no successful analyses remain. -/
def noUpdatePlaceholder (keyword : String) : String :=
  "今日「" ++ keyword ++ "」领域暂无相关论文更新。"

/-- What one `generate_summary` invocation did: the returned text, how many
model calls were issued, and the prompt used if one was. -/
structure SummaryOutcome where
  text : String
  calls : Nat
  promptUsed : Option String

/-- `SummaryAgent.generate_summary`, with the `chat` call abstracted as its
outcome.  Filters to `success = true` analyses; with none left, returns the
placeholder without calling the model; otherwise issues one call and, on
failure, returns the error placeholder instead of raising. -/
def generate_summary (keyword language : String) (analyses : List PaperAnalysis)
    (chat : Except String String) : SummaryOutcome :=
  let successful := analyses.filter (fun a => a.success)
  if successful.isEmpty then
    { text := noUpdatePlaceholder keyword, calls := 0, promptUsed := none }
  else
    let prompt := mkSummaryPrompt keyword (format_papers_analysis successful) language
    match chat with
    | .ok summary => { text := summary, calls := 1, promptUsed := some prompt }
    | .error e =>
      { text := "生成「" ++ keyword ++ "」领域总结时发生错误: " ++ e
        calls := 1
        promptUsed := some prompt }

/-! ## PaperHistory (src/paper_history.py)

The persisted JSON file is modelled by its parsed value (`Option JsonVal`,
`none` when the file does not exist): `json.dump` followed by `json.load`
is the identity on JSON-representable dicts, so the text layer is elided.
Operations that Python code would abort with an exception return `none`. -/

/-- Python `<` on strings: lexicographic comparison by code point. -/
def strLt : List Char → List Char → Bool
  | [], [] => false
  | [], _ :: _ => true
  | _ :: _, [] => false
  | x :: xs, y :: ys =>
    if x.toNat < y.toNat then true
    else if y.toNat < x.toNat then false
    else strLt xs ys

/-- Python `needle in hay` on strings: contiguous substring test. -/
def strIn (needle : List Char) : List Char → Bool
  | [] => needle.isEmpty
  | c :: rest => needle.isPrefixOf (c :: rest) || strIn needle rest

/-- The fresh in-memory state used when the file is absent or unreadable:
`{"papers": {}, "last_updated": None}`. -/
def emptyHistory : JsonVal :=
  .obj [("papers", .obj []), ("last_updated", .null)]

/-- `PaperHistory._load_history`: a missing file yields the empty state; a
loaded value survives only if the debug line `len(data.get("papers", {}))`
does not raise, i.e. the top level is a dict and its `papers` entry (dict
default `{}`) supports `len` — a dict, list or string. -/
def load_history (file : Option JsonVal) : JsonVal :=
  match file with
  | none => emptyHistory
  | some data =>
    match data with
    | .obj fields =>
      match getD fields "papers" (.obj []) with
      | .obj _ => data
      | .arr _ => data
      | .str _ => data
      | _ => emptyHistory
    | _ => emptyHistory

/-- `PaperHistory.is_new_paper`: `paper_id not in self._history.get("papers", {})`.
The membership test follows Python semantics for the type actually stored
under `"papers"`; `none` marks the types on which `in` raises. -/
def is_new_paper (h : JsonVal) (pid : String) : Option Bool :=
  match h with
  | .obj fields =>
    match getD fields "papers" (.obj []) with
    | .obj papers => some (lookupKey papers pid).isNone
    | .arr xs => some (!xs.any (fun v => pyEqStr v pid))
    | .str s => some (!strIn pid.data s.data)
    | _ => none
  | _ => none

/-- `PaperHistory.add_paper` followed by `_save_history`: insert the record
under `self._history["papers"]` (a `KeyError`/`TypeError` if that entry is
missing or not a dict), stamp `last_updated`, and persist.  Returns the new
in-memory state and the persisted file value. -/
def add_paper (h : JsonVal) (pid title source : String) (keywords : List String)
    (pdf_path : Option String) (dateStr timeStr saveTime : String) :
    Option (JsonVal × JsonVal) :=
  match h with
  | .obj fields =>
    match lookupKey fields "papers" with
    | some (.obj papers) =>
      let record : JsonVal := .obj
        [("title", .str title), ("source", .str source),
         ("keywords", .arr (keywords.map JsonVal.str)),
         ("pdf_path", match pdf_path with | some p => .str p | none => .null),
         ("processed_date", .str dateStr), ("processed_time", .str timeStr)]
      let fields' := setKey fields "papers" (.obj (setKey papers pid record))
      some (.obj fields', .obj (setKey fields' "last_updated" (.str saveTime)))
    | some _ => none
    | none => none
  | _ => none

/-! ### Date arithmetic for cleanup_old_papers

`(datetime.now() - timedelta(days=days)).strftime("%Y-%m-%d")` is modelled
with proleptic Gregorian civil-calendar arithmetic on day ordinals (epoch
0000-03-01), the standard days-from-civil / civil-from-days construction. -/

structure Date where
  year : Nat
  month : Nat
  day : Nat

/-- Day ordinal of a civil date (valid for year ≥ 1, as `datetime` is). -/
def dayOrdinal (d : Date) : Nat :=
  let y := d.year - (if d.month ≤ 2 then 1 else 0)
  let era := y / 400
  let yoe := y % 400
  let mp := (d.month + 9) % 12
  let doy := (153 * mp + 2) / 5 + (d.day - 1)
  let doe := yoe * 365 + yoe / 4 - yoe / 100 + doy
  era * 146097 + doe

/-- Civil date of a day ordinal. -/
def civilOfOrdinal (z : Nat) : Date :=
  let era := z / 146097
  let doe := z % 146097
  let yoe := (doe - doe / 1460 + doe / 36524 - doe / 146096) / 365
  let y := yoe + era * 400
  let doy := doe - (365 * yoe + yoe / 4 - yoe / 100)
  let mp := (5 * doy + 2) / 153
  let day := doy - (153 * mp + 2) / 5 + 1
  let month := if mp < 10 then mp + 3 else mp - 9
  { year := y + (if month ≤ 2 then 1 else 0), month := month, day := day }

/-- Decimal digits of `n`, left-padded with zeros to width `w`
(`strftime` zero-padding). -/
def padNum (w n : Nat) : List Char :=
  let digits := Nat.toDigits 10 n
  List.replicate (w - digits.length) '0' ++ digits

/-- `strftime("%Y-%m-%d")`. -/
def isoChars (d : Date) : List Char :=
  padNum 4 d.year ++ ['-'] ++ padNum 2 d.month ++ ['-'] ++ padNum 2 d.day

/-- The cutoff string `(today - timedelta(days=days)).strftime("%Y-%m-%d")`. -/
def cutoffStr (today : Date) (days : Nat) : List Char :=
  isoChars (civilOfOrdinal (dayOrdinal today - days))

/-- `info.get("processed_date", "")` as used in the cleanup comparison:
`none` when the record is not a dict (`AttributeError`) or the stored value
is not a string (the `<` against a string would be a `TypeError`). -/
def procDate : JsonVal → Option (List Char)
  | .obj fields =>
    match lookupKey fields "processed_date" with
    | none => some []
    | some (.str s) => some s.data
    | some _ => none
  | _ => none

/-- The `to_remove` list built by `cleanup_old_papers`: ids of records whose
processed date is lexicographically before the cutoff; `none` if any record
makes the loop raise. -/
def toRemove (cutoff : List Char) : List (String × JsonVal) → Option (List String)
  | [] => some []
  | (pid, info) :: rest =>
    match procDate info with
    | none => none
    | some pd =>
      match toRemove cutoff rest with
      | none => none
      | some tl => some (if strLt pd cutoff then pid :: tl else tl)

/-- `PaperHistory.cleanup_old_papers` on the `papers` dict: returns the
remaining records, the removed count, and whether `_save_history` ran. -/
def cleanup_old_papers (papers : List (String × JsonVal)) (days : Nat)
    (today : Date) : Option (List (String × JsonVal) × Nat × Bool) :=
  match toRemove (cutoffStr today days) papers with
  | none => none
  | some rem =>
    some (papers.filter (fun p => !rem.contains p.1), rem.length,
      decide (0 < rem.length))

/-! ## Lemmas about the retry/fallback loop -/

theorem foldl_const_last {α β : Type} (g : α → β) (l : List α) (x : α) (b : β) :
    (l ++ [x]).foldl (fun _ a => g a) b = g x := by
  rw [List.foldl_append]; rfl

theorem tryAttempts_allFail (behavior : Behavior) (E : Nat → Nat → String) (i : Nat) :
    ∀ (attempts : List Nat) (le : Option String),
      (∀ a ∈ attempts, behavior i a = .err (E i a)) →
      tryAttempts behavior i attempts le =
        (none, attempts.foldl (fun _ a => some (E i a)) le,
          attempts.map (fun a => (i, a))) := by
  intro attempts
  induction attempts with
  | nil => intro le _; rfl
  | cons a rest ih =>
    intro le h
    have ha := h a (by simp)
    have hrest : ∀ b ∈ rest, behavior i b = .err (E i b) :=
      fun b hb => h b (List.mem_cons_of_mem a hb)
    simp only [tryAttempts, ha, ih (some (E i a)) hrest, List.foldl_cons, List.map_cons]

theorem foldl_err_range' (E : Nat → Nat → String) (i R : Nat) (hR : 0 < R)
    (le : Option String) :
    (List.range' 1 R).foldl (fun _ a => some (E i a)) le = some (E i R) := by
  obtain ⟨R', rfl⟩ : ∃ R', R = R' + 1 := ⟨R - 1, (Nat.succ_pred_eq_of_pos hR).symm⟩
  rw [List.range'_concat]
  rw [foldl_const_last (fun a => some (E i a))]
  simp [Nat.add_comm]

theorem tryProviders_allFail (behavior : Behavior) (E : Nat → Nat → String)
    (R : Nat) (hR : 0 < R) :
    ∀ (ps qs : List Nat) (le : Option String),
      (∀ i ∈ ps, ∀ a, 1 ≤ a → a ≤ R → behavior i a = .err (E i a)) →
      tryProviders behavior R (ps ++ qs) le =
        ((tryProviders behavior R qs (ps.foldl (fun _ i => some (E i R)) le)).1,
         (tryProviders behavior R qs (ps.foldl (fun _ i => some (E i R)) le)).2.1,
         ps.flatMap (fun i => providerTrace i R) ++
           (tryProviders behavior R qs (ps.foldl (fun _ i => some (E i R)) le)).2.2) := by
  intro ps
  induction ps with
  | nil => intro qs le _; simp
  | cons i ps ih =>
    intro qs le h
    have hi : ∀ a ∈ List.range' 1 R, behavior i a = .err (E i a) := by
      intro a ha
      rcases List.mem_range'_1.mp ha with ⟨h1, h2⟩
      exact h i (by simp) a h1 (by omega)
    have hattempts := tryAttempts_allFail behavior E i (List.range' 1 R) le hi
    have hps : ∀ i' ∈ ps, ∀ a, 1 ≤ a → a ≤ R → behavior i' a = .err (E i' a) :=
      fun i' hi' => h i' (List.mem_cons_of_mem i hi')
    simp only [List.cons_append, tryProviders, hattempts,
      foldl_err_range' E i R hR le, List.foldl_cons, List.flatMap_cons]
    rw [show ps.append qs = ps ++ qs from rfl, ih qs (some (E i R)) hps]
    simp [providerTrace, List.append_assoc]

theorem fullTrace_length (N R : Nat) : (fullTrace N R).length = N * R := by
  induction N with
  | zero => simp [fullTrace]
  | succ n ih =>
    rw [fullTrace, List.range_succ, List.flatMap_append, List.length_append]
    rw [show (List.range n).flatMap (fun i => providerTrace i R) = fullTrace n R from rfl, ih]
    simp [providerTrace, Nat.succ_mul]

theorem foldl_err_range (E : Nat → Nat → String) (N R : Nat) (hN : 0 < N)
    (le : Option String) :
    (List.range N).foldl (fun _ i => some (E i R)) le = some (E (N - 1) R) := by
  obtain ⟨N', rfl⟩ : ∃ N', N = N' + 1 := ⟨N - 1, (Nat.succ_pred_eq_of_pos hN).symm⟩
  rw [List.range_succ, foldl_const_last (fun i => some (E i R))]
  simp

/-- C1: with N providers and max_retries = R, a call on which every attempt
of every provider fails performs exactly the N×R attempts `(0,1) … (N-1,R)`
in provider order with R consecutive attempts per provider, and both `chat`
and `chat_with_pdf` finally raise the error of attempt R of provider N-1. -/
theorem resilient_exhaustion (behavior : Behavior) (E : Nat → Nat → String)
    (N R : Nat) (hN : 0 < N) (hR : 0 < R)
    (hfail : ∀ i a, i < N → 1 ≤ a → a ≤ R → behavior i a = .err (E i a)) :
    chatRun behavior N R = (.failure (E (N - 1) R), fullTrace N R) ∧
    chatWithPdfRun behavior N R = (.failure (E (N - 1) R), fullTrace N R) ∧
    (fullTrace N R).length = N * R := by
  have hps : ∀ i ∈ List.range N, ∀ a, 1 ≤ a → a ≤ R → behavior i a = .err (E i a) := by
    intro i hi a h1 h2
    exact hfail i a (List.mem_range.mp hi) h1 h2
  have hmain := tryProviders_allFail behavior E R hR (List.range N) [] none hps
  rw [List.append_nil] at hmain
  have hrun : chatRun behavior N R = (.failure (E (N - 1) R), fullTrace N R) := by
    unfold chatRun fallbackRun callWithFallback
    rw [hmain]
    simp only [tryProviders, foldl_err_range E N R hN none, fullTrace, List.append_nil]
  exact ⟨hrun, hrun, fullTrace_length N R⟩

/-- Witness for C1 at N = 2 providers, R = 3 retries, every attempt failing
with a distinguishable error message. -/
theorem resilient_exhaustion_witness :
    chatRun (fun i a => .err (toString i ++ "/" ++ toString a)) 2 3 =
      (.failure ("1/3"), [(0, 1), (0, 2), (0, 3), (1, 1), (1, 2), (1, 3)]) ∧
    chatWithPdfRun (fun i a => .err (toString i ++ "/" ++ toString a)) 2 3 =
      (.failure ("1/3"), [(0, 1), (0, 2), (0, 3), (1, 1), (1, 2), (1, 3)]) ∧
    (fullTrace 2 3).length = 2 * 3 :=
  resilient_exhaustion (fun i a => .err (toString i ++ "/" ++ toString a))
    (fun i a => toString i ++ "/" ++ toString a) 2 3 (by decide) (by decide)
    (fun _ _ _ _ _ => rfl)

theorem tryAttempts_firstSuccess (behavior : Behavior) (E : Nat → Nat → String)
    (i : Nat) (k : Nat) (r : String) (hsucc : behavior i k = .ok r) :
    ∀ (pre : List Nat) (post : List Nat) (le : Option String),
      (∀ a ∈ pre, behavior i a = .err (E i a)) →
      tryAttempts behavior i (pre ++ k :: post) le =
        (some r, pre.foldl (fun _ a => some (E i a)) le,
          pre.map (fun a => (i, a)) ++ [(i, k)]) := by
  intro pre
  induction pre with
  | nil =>
    intro post le _
    simp only [List.nil_append, tryAttempts, hsucc, List.foldl_nil, List.map_nil]
  | cons a rest ih =>
    intro post le h
    have ha := h a (by simp)
    have hrest : ∀ b ∈ rest, behavior i b = .err (E i b) :=
      fun b hb => h b (List.mem_cons_of_mem a hb)
    simp only [List.cons_append, tryAttempts, ha, List.foldl_cons, List.map_cons]
    rw [show rest.append (k :: post) = rest ++ k :: post from rfl,
      ih post (some (E i a)) hrest]

theorem providerTrace_concat (i k : Nat) (hk : 0 < k) :
    (List.range' 1 (k - 1)).map (fun a => (i, a)) ++ [(i, k)] = providerTrace i k := by
  obtain ⟨k', rfl⟩ : ∃ k', k = k' + 1 := ⟨k - 1, (Nat.succ_pred_eq_of_pos hk).symm⟩
  simp only [providerTrace, Nat.add_sub_cancel, List.range'_concat, List.map_append]
  simp [Nat.add_comm]

/-- C2: if the first successful attempt is attempt k of provider j (1-based,
everything earlier failing), `chat` and `chat_with_pdf` stop right there:
the executed attempts are exactly the full traces of providers 1..j-1
followed by attempts 1..k of provider j — (j-1)·R + k attempts in all — and
the call returns that attempt's result. -/
theorem resilient_shortCircuit (behavior : Behavior) (E : Nat → Nat → String)
    (N R j k : Nat) (r : String)
    (hj1 : 1 ≤ j) (hjN : j ≤ N) (hk1 : 1 ≤ k) (hkR : k ≤ R)
    (hbefore : ∀ i a, i < j - 1 → 1 ≤ a → a ≤ R → behavior i a = .err (E i a))
    (hearlier : ∀ a, 1 ≤ a → a < k → behavior (j - 1) a = .err (E (j - 1) a))
    (hsucc : behavior (j - 1) k = .ok r) :
    chatRun behavior N R =
      (.success r, fullTrace (j - 1) R ++ providerTrace (j - 1) k) ∧
    chatWithPdfRun behavior N R =
      (.success r, fullTrace (j - 1) R ++ providerTrace (j - 1) k) ∧
    (fullTrace (j - 1) R ++ providerTrace (j - 1) k).length = (j - 1) * R + k := by
  -- split the provider list at provider j-1
  have hsplit : List.range N = List.range (j - 1) ++ (j - 1) :: List.range' j (N - j) := by
    have h1 := List.range'_append 0 (j - 1) (N - (j - 1)) 1
    have e1 : 0 + 1 * (j - 1) = j - 1 := by omega
    have e2 : N - (j - 1) + (j - 1) = N := by omega
    rw [e1, e2] at h1
    have h2 : List.range' (j - 1) (N - (j - 1)) = (j - 1) :: List.range' j (N - j) := by
      have hm : N - (j - 1) = (N - j) + 1 := by omega
      have hj : j - 1 + 1 = j := by omega
      rw [hm, List.range'_succ, hj]
    rw [List.range_eq_range', ← h1, h2, List.range_eq_range']
  -- split the attempt list of provider j-1 at attempt k
  have hattSplit : List.range' 1 R = List.range' 1 (k - 1) ++ k :: List.range' (k + 1) (R - k) := by
    have h1 := List.range'_append 1 (k - 1) (R - (k - 1)) 1
    have e1 : 1 + 1 * (k - 1) = k := by omega
    have e2 : R - (k - 1) + (k - 1) = R := by omega
    rw [e1, e2] at h1
    have h2 : List.range' k (R - (k - 1)) = k :: List.range' (k + 1) (R - k) := by
      have hm : R - (k - 1) = (R - k) + 1 := by omega
      rw [hm, List.range'_succ]
    rw [← h1, h2]
  have hpreFail : ∀ a ∈ List.range' 1 (k - 1), behavior (j - 1) a = .err (E (j - 1) a) := by
    intro a ha
    rcases List.mem_range'_1.mp ha with ⟨h1, h2⟩
    exact hearlier a h1 (by omega)
  have hatt := tryAttempts_firstSuccess behavior E (j - 1) k r hsucc
    (List.range' 1 (k - 1)) (List.range' (k + 1) (R - k))
  have hps : ∀ i ∈ List.range (j - 1), ∀ a, 1 ≤ a → a ≤ R → behavior i a = .err (E i a) := by
    intro i hi a h1 h2
    exact hbefore i a (List.mem_range.mp hi) h1 h2
  have hrun : chatRun behavior N R =
      (.success r, fullTrace (j - 1) R ++ providerTrace (j - 1) k) := by
    unfold chatRun fallbackRun callWithFallback
    rw [hsplit, tryProviders_allFail behavior E R (Nat.lt_of_lt_of_le hk1 hkR)
      (List.range (j - 1)) ((j - 1) :: List.range' j (N - j)) none hps]
    simp only [tryProviders, hattSplit,
      hatt (List.foldl (fun _ i => some (E i R)) none (List.range (j - 1))) hpreFail]
    rw [providerTrace_concat (j - 1) k hk1]
    rfl
  refine ⟨hrun, hrun, ?_⟩
  rw [List.length_append, fullTrace_length]
  simp [providerTrace]

/-- Witness for C2 at N = 3, R = 4, success on attempt k = 2 of provider
j = 2 (so after one fully failing provider): 1·4 + 2 = 6 attempts. -/
theorem resilient_shortCircuit_witness :
    chatRun
      (fun i a => if i = 1 && a = 2 then .ok "answer" else .err (toString i ++ "/" ++ toString a))
      3 4 = (.success "answer", [(0, 1), (0, 2), (0, 3), (0, 4), (1, 1), (1, 2)]) ∧
    chatWithPdfRun
      (fun i a => if i = 1 && a = 2 then .ok "answer" else .err (toString i ++ "/" ++ toString a))
      3 4 = (.success "answer", [(0, 1), (0, 2), (0, 3), (0, 4), (1, 1), (1, 2)]) ∧
    (fullTrace 1 4 ++ providerTrace 1 2).length = 1 * 4 + 2 :=
  resilient_shortCircuit
    (fun i a => if i = 1 && a = 2 then .ok "answer" else .err (toString i ++ "/" ++ toString a))
    (fun i a => toString i ++ "/" ++ toString a) 3 4 2 2 "answer"
    (by decide) (by decide) (by decide) (by decide)
    (by intro i a hi h1 h2; interval_cases i; simp)
    (by intro a h1 h2; interval_cases a; simp)
    (by simp)

/-- C9: with an empty provider list, `chat` and `chat_with_pdf` make zero
attempts, and the bare `raise last_error` re-raises the initial `None`,
surfacing as a `TypeError` rather than a provider error. -/
theorem resilient_emptyProviders (behavior : Behavior) (R : Nat) :
    chatRun behavior 0 R = (.typeError, []) ∧
    chatWithPdfRun behavior 0 R = (.typeError, []) :=
  ⟨rfl, rfl⟩

/-! ## FilterAgent normalization (C3) -/

/-- C3 as stated is false on the code: the normalization only forces
`matched` to false when the relevance value is exactly `"low"`.  A response
parsing to an object with `matched: true` and a relevance string outside the
documented enum — here `"slight"` — makes `filter_paper` return a result
with `matched = true` whose relevance is neither `"high"` nor `"medium"`. -/
theorem filter_matched_only_high_medium_false :
    (filter_paper (.ok "\x7b\"matched\": true, \"relevance\": \"slight\"\x7d")).matched
      = true ∧
    (filter_paper (.ok "\x7b\"matched\": true, \"relevance\": \"slight\"\x7d")).relevance
      = .str "slight" ∧
    ("slight" ≠ "high" ∧ "slight" ≠ "medium") := by
  refine ⟨rfl, rfl, by decide, by decide⟩

/-- C3, amended: `matched` can be true only when the stored relevance is not
`"low"`; whenever the parsed relevance is `"low"` or the key is absent, the
result has `matched = false` even if the parsed `matched` flag was true; and
for responses within the documented relevance enum, `matched = true` implies
relevance `"high"` or `"medium"`.  (`filter_paper` applies `classifyParsed`
to every response that parses to a JSON object.) -/
theorem filter_matched_normalization (fields : List (String × JsonVal)) :
    (∀ response, parseResponse response = some (.obj fields) →
      filter_paper (.ok response) = classifyParsed fields) ∧
    ((classifyParsed fields).matched = true →
      (classifyParsed fields).relevance ≠ .str "low") ∧
    (getD fields "relevance" (.str "low") = .str "low" →
      (classifyParsed fields).matched = false) ∧
    ((getD fields "relevance" (.str "low") = .str "high" ∨
      getD fields "relevance" (.str "low") = .str "medium" ∨
      getD fields "relevance" (.str "low") = .str "low") →
      (classifyParsed fields).matched = true →
      (classifyParsed fields).relevance = .str "high" ∨
        (classifyParsed fields).relevance = .str "medium") := by
  have hrel : (classifyParsed fields).relevance = getD fields "relevance" (.str "low") := rfl
  have key : getD fields "relevance" (.str "low") = .str "low" →
      (classifyParsed fields).matched = false := by
    intro hlow
    show truthy (if truthy (getD fields "matched" (.bool false)) &&
        pyEqStr (getD fields "relevance" (.str "low")) "low" then JsonVal.bool false
      else getD fields "matched" (.bool false)) = false
    rw [hlow]
    cases ht : truthy (getD fields "matched" (.bool false)) with
    | true => simp [pyEqStr, truthy]
    | false => simp [ht]
  refine ⟨?_, ?_, key, ?_⟩
  · intro response hresp
    simp [filter_paper, hresp]
  · intro hm hlow
    rw [hrel] at hlow
    rw [key hlow] at hm
    exact Bool.false_ne_true hm
  · rintro (h | h | h) hm
    · exact Or.inl (hrel.trans h)
    · exact Or.inr (hrel.trans h)
    · rw [key h] at hm
      exact absurd hm (by simp)

/-- Witness for the amended C3 on a concrete in-enum response. -/
theorem filter_matched_normalization_witness :
    (classifyParsed [("matched", .bool true), ("relevance", .str "low")]).matched = false :=
  (filter_matched_normalization
    [("matched", .bool true), ("relevance", .str "low")]).2.2.1 rfl

/-! ## Response parser strategy order (C4) -/

/-- A model response with the JSON object wrapped in explanatory prose and a
fenced code block. -/
def proseFencedExample : String :=
  "Sure! Here is the JSON you asked for:\n```json\n\x7b\"matched\": true, \"relevance\": \"high\"\x7d\n```\nLet me know if you need anything else."

/-- C4: `_parse_response` applies exactly three strategies in order — whole
text as JSON, then the first fenced code block, then the first brace-delimited
substring without nested braces — returns the value of the first strategy
whose extract parses, and fails (None) exactly when all three fail.  In
particular a JSON object wrapped in prose plus a fenced block still parses. -/
theorem parse_response_strategies :
    (∀ s v, jsonLoads s = some v → parseResponse s = some v) ∧
    (∀ s g v, jsonLoads s = none → fencedSearch s.data = some g →
      jsonLoads (String.mk g) = some v → parseResponse s = some v) ∧
    (∀ s, jsonLoads s = none →
      (∀ g, fencedSearch s.data = some g → jsonLoads (String.mk g) = none) →
      parseResponse s =
        (match braceSearch s.data with
         | some b => jsonLoads (String.mk b)
         | none => none)) ∧
    (∀ s, parseResponse s = none ↔
      (jsonLoads s = none ∧
        (∀ g, fencedSearch s.data = some g → jsonLoads (String.mk g) = none) ∧
        (∀ b, braceSearch s.data = some b → jsonLoads (String.mk b) = none))) ∧
    parseResponse proseFencedExample =
      some (.obj [("matched", .bool true), ("relevance", .str "high")]) := by
  refine ⟨?_, ?_, ?_, ?_, rfl⟩
  · intro s v h
    simp [parseResponse, h]
  · intro s g v h1 h2 h3
    simp [parseResponse, h1, h2, h3]
  · intro s h1 h2
    cases hf : fencedSearch s.data with
    | some g => simp [parseResponse, h1, hf, h2 g hf]
    | none => simp [parseResponse, h1, hf]
  · intro s
    cases h1 : jsonLoads s with
    | some v => simp [parseResponse, h1]
    | none =>
      cases h2 : fencedSearch s.data with
      | some g =>
        cases h3 : jsonLoads (String.mk g) with
        | some v => simp [parseResponse, h1, h2, h3]
        | none =>
          cases h4 : braceSearch s.data with
          | some b => simp [parseResponse, h1, h2, h3, h4]
          | none => simp [parseResponse, h1, h2, h3, h4]
      | none =>
        cases h4 : braceSearch s.data with
        | some b => simp [parseResponse, h1, h2, h4]
        | none => simp [parseResponse, h1, h2, h4]

/-- Witness for C4: strategy 1 succeeding on a bare JSON object. -/
theorem parse_response_strategies_witness :
    parseResponse "\x7b\"matched\": false\x7d" = some (.obj [("matched", .bool false)]) :=
  parse_response_strategies.1 "\x7b\"matched\": false\x7d"
    (.obj [("matched", .bool false)]) rfl

/-! ## FilterAgent error handling (C5) -/

/-- C5: `filter_paper` never raises — it is a total function into
`FilterResult`.  A failed chat call yields a non-match carrying the error
text; an unparseable response yields a non-match with the fixed
parse-failure reason; and the batch `filter_papers` always processes the
remaining documents after a non-matching (or failed) one, keeping exactly
the matched results in input order. -/
theorem filter_paper_error_handling :
    (∀ e, filter_paper (.error e) =
      { matched := false, matched_keywords := .arr [], relevance := .str "low",
        reason := .str ("Error: " ++ e) }) ∧
    (∀ response, parseResponse response = none →
      filter_paper (.ok response) =
        { matched := false, matched_keywords := .arr [], relevance := .str "low",
          reason := .str "Failed to parse LLM response" }) ∧
    (∀ o rest, (filter_paper o).matched = false →
      filter_papers (o :: rest) = filter_papers rest) ∧
    (∀ o rest, (filter_paper o).matched = true →
      filter_papers (o :: rest) = filter_paper o :: filter_papers rest) ∧
    (∀ outcomes, filter_papers outcomes =
      (outcomes.map filter_paper).filter (fun r => r.matched)) := by
  refine ⟨fun e => rfl, ?_, ?_, ?_, ?_⟩
  · intro response h
    simp [filter_paper, h]
  · intro o rest h
    simp [filter_papers, h]
  · intro o rest h
    simp [filter_papers, h]
  · intro outcomes
    induction outcomes with
    | nil => rfl
    | cons o rest ih =>
      cases h : (filter_paper o).matched with
      | true => simp [filter_papers, h, ih, List.filter_cons]
      | false => simp [filter_papers, h, ih, List.filter_cons]

/-- Witness for C5: a failing call and an unparseable response, inside a
batch that still processes the valid document after them. -/
theorem filter_paper_error_handling_witness :
    filter_paper (.error "boom") =
      { matched := false, matched_keywords := .arr [], relevance := .str "low",
        reason := .str ("Error: " ++ "boom") } ∧
    filter_paper (.ok "no json at all") =
      { matched := false, matched_keywords := .arr [], relevance := .str "low",
        reason := .str "Failed to parse LLM response" } ∧
    filter_papers [.error "boom",
        .ok "\x7b\"matched\": true, \"relevance\": \"high\"\x7d"] =
      filter_papers [.ok "\x7b\"matched\": true, \"relevance\": \"high\"\x7d"] :=
  ⟨filter_paper_error_handling.1 "boom",
   filter_paper_error_handling.2.1 "no json at all" rfl,
   filter_paper_error_handling.2.2.1 (.error "boom")
     [.ok "\x7b\"matched\": true, \"relevance\": \"high\"\x7d"] rfl⟩

/-! ## SummaryAgent placeholder and prompt filtering (C8) -/

/-- C8: with no `success = true` analysis, `generate_summary` returns the
fixed placeholder naming the keyword and performs zero model calls; and
whenever a call is made, the prompt is built from exactly the
`success = true` analyses. -/
theorem summary_success_filtering (keyword language : String)
    (analyses : List PaperAnalysis) (chat : Except String String) :
    (analyses.filter (fun a => a.success) = [] →
      generate_summary keyword language analyses chat =
        { text := "今日「" ++ keyword ++ "」领域暂无相关论文更新。", calls := 0,
          promptUsed := none }) ∧
    (analyses.filter (fun a => a.success) ≠ [] →
      (generate_summary keyword language analyses chat).calls = 1 ∧
      (generate_summary keyword language analyses chat).promptUsed =
        some (mkSummaryPrompt keyword
          (format_papers_analysis (analyses.filter (fun a => a.success)))
          language)) := by
  constructor
  · intro h
    simp [generate_summary, h, noUpdatePlaceholder]
  · intro h
    have hne : (analyses.filter (fun a => a.success)).isEmpty = false := by
      cases hf : analyses.filter (fun a => a.success) with
      | nil => exact absurd hf h
      | cons x xs => simp [hf]
    cases chat with
    | ok s => simp [generate_summary, hne]
    | error e => simp [generate_summary, hne]

/-- Witness for C8: one unsuccessful analysis — placeholder, no call; one
successful analysis — one call with the filtered prompt. -/
theorem summary_success_filtering_witness :
    generate_summary "LLM" "Chinese"
        [{ arxiv_id := "2401.0001", title := "t", authors := [], affiliations := [],
           tldr := "", contributions := [], innovations := [], methodology := "",
           success := false }] (.ok "summary text") =
      { text := "今日「" ++ "LLM" ++ "」领域暂无相关论文更新。", calls := 0,
        promptUsed := none } ∧
    (generate_summary "LLM" "Chinese"
        [{ arxiv_id := "2401.0001", title := "t", authors := [], affiliations := [],
           tldr := "", contributions := [], innovations := [], methodology := "",
           success := true }] (.ok "summary text")).calls = 1 :=
  ⟨(summary_success_filtering "LLM" "Chinese"
      [{ arxiv_id := "2401.0001", title := "t", authors := [], affiliations := [],
         tldr := "", contributions := [], innovations := [], methodology := "",
         success := false }] (.ok "summary text")).1 rfl,
   ((summary_success_filtering "LLM" "Chinese"
      [{ arxiv_id := "2401.0001", title := "t", authors := [], affiliations := [],
         tldr := "", contributions := [], innovations := [], methodology := "",
         success := true }] (.ok "summary text")).2 (by simp)).1⟩

/-! ## Ledger round-trip (C6) -/

theorem lookupKey_setKey_self {α : Type} (k : String) (v : α) :
    ∀ fields : List (String × α), lookupKey (setKey fields k v) k = some v := by
  intro fields
  induction fields with
  | nil => simp [setKey, lookupKey]
  | cons p rest ih =>
    obtain ⟨k', v'⟩ := p
    by_cases h : k' = k
    · simp [setKey, h, lookupKey]
    · simp [setKey, h, lookupKey, ih]

theorem lookupKey_setKey_ne {α : Type} (k k2 : String) (v : α) (hne : k2 ≠ k) :
    ∀ fields : List (String × α),
      lookupKey (setKey fields k2 v) k = lookupKey fields k := by
  intro fields
  induction fields with
  | nil => simp [setKey, lookupKey, hne]
  | cons p rest ih =>
    obtain ⟨k', v'⟩ := p
    by_cases h : k' = k2
    · subst h
      simp [setKey, lookupKey, hne, ih]
    · simp [setKey, h, lookupKey, ih]

theorem load_after_save (fields papers : List (String × JsonVal)) (pid : String)
    (record : JsonVal) (saveTime : String) :
    is_new_paper (load_history (some (JsonVal.obj
      (setKey (setKey fields "papers" (JsonVal.obj (setKey papers pid record)))
        "last_updated" (JsonVal.str saveTime))))) pid = some false := by
  have h1 : lookupKey (setKey (setKey fields "papers"
      (JsonVal.obj (setKey papers pid record))) "last_updated" (JsonVal.str saveTime))
      "papers" = some (JsonVal.obj (setKey papers pid record)) := by
    rw [lookupKey_setKey_ne _ _ _ (by decide), lookupKey_setKey_self]
  simp [load_history, getD, h1, is_new_paper, lookupKey_setKey_self]

/-- C6: whenever `add_paper` succeeds in persisting (producing the file value
`file`), a fresh `PaperHistory` loaded from that same storage answers
`is_new_paper(pid) = false`. -/
theorem history_roundtrip (h : JsonVal) (pid title source : String)
    (keywords : List String) (pdf_path : Option String)
    (dateStr timeStr saveTime : String) (mem file : JsonVal)
    (hadd : add_paper h pid title source keywords pdf_path dateStr timeStr saveTime
      = some (mem, file)) :
    is_new_paper (load_history (some file)) pid = some false := by
  cases h with
  | obj fields =>
    cases hp : lookupKey fields "papers" with
    | none => simp [add_paper, hp] at hadd
    | some pv =>
      cases pv with
      | obj papers =>
        simp only [add_paper, hp, Option.some.injEq, Prod.mk.injEq] at hadd
        obtain ⟨hmem, hfile⟩ := hadd
        subst hfile
        exact load_after_save fields papers pid _ saveTime
      | null => simp [add_paper, hp] at hadd
      | bool b => simp [add_paper, hp] at hadd
      | num l => simp [add_paper, hp] at hadd
      | str s => simp [add_paper, hp] at hadd
      | arr xs => simp [add_paper, hp] at hadd
  | null => simp [add_paper] at hadd
  | bool b => simp [add_paper] at hadd
  | num l => simp [add_paper] at hadd
  | str s => simp [add_paper] at hadd
  | arr xs => simp [add_paper] at hadd

/-- Witness for C6: recording a paper into a fresh ledger and reloading from
the persisted value. -/
theorem history_roundtrip_witness :
    is_new_paper (load_history (some (JsonVal.obj
      [("papers", .obj [("arxiv:2401.0001", .obj
          [("title", .str "T"), ("source", .str "arxiv"), ("keywords", .arr []),
           ("pdf_path", .null), ("processed_date", .str "2026-10-12"),
           ("processed_time", .str "2026-10-12T08:00:00")])]),
       ("last_updated", .str "2026-10-12T08:00:01")]))) "arxiv:2401.0001" =
      some false :=
  history_roundtrip emptyHistory "arxiv:2401.0001" "T" "arxiv" [] none
    "2026-10-12" "2026-10-12T08:00:00" "2026-10-12T08:00:01" _ _ rfl

/-! ## Cleanup of old ledger records (C7, C10) -/

/-- The removal condition of `cleanup_old_papers` for one record:
`info.get("processed_date", "") < cutoff_date`. -/
def dateBelowCutoff (cutoff : List Char) (info : JsonVal) : Bool :=
  match procDate info with
  | some pd => strLt pd cutoff
  | none => false

theorem toRemove_eq (cutoff : List Char) :
    ∀ (papers : List (String × JsonVal)) (rem : List String),
      toRemove cutoff papers = some rem →
      rem = (papers.filter (fun p => dateBelowCutoff cutoff p.2)).map Prod.fst := by
  intro papers
  induction papers with
  | nil =>
    intro rem h
    simp only [toRemove, Option.some.injEq] at h
    simp [← h]
  | cons p rest ih =>
    intro rem h
    obtain ⟨pid, info⟩ := p
    simp only [toRemove] at h
    cases hpd : procDate info with
    | none => rw [hpd] at h; exact absurd h (by simp)
    | some pd =>
      rw [hpd] at h
      cases htl : toRemove cutoff rest with
      | none => rw [htl] at h; exact absurd h (by simp)
      | some tl =>
        rw [htl] at h
        simp only [Option.some.injEq] at h
        subst h
        by_cases hlt : strLt pd cutoff
        · simp [List.filter_cons, dateBelowCutoff, hpd, hlt, ih tl htl]
        · simp [List.filter_cons, dateBelowCutoff, hpd, hlt, ih tl htl]

/-- C7: `cleanup_old_papers(days)` removes exactly the records whose
`processed_date` string is lexicographically strictly below the ISO string
of `today - days` (other records are kept, in order), returns the number
removed, and runs `_save_history` exactly when that number is positive. -/
theorem cleanup_old_papers_spec (papers : List (String × JsonVal)) (days : Nat)
    (today : Date) (remaining : List (String × JsonVal)) (n : Nat) (saved : Bool)
    (hnodup : (papers.map Prod.fst).Nodup)
    (hres : cleanup_old_papers papers days today = some (remaining, n, saved)) :
    remaining = papers.filter
      (fun p => !dateBelowCutoff (cutoffStr today days) p.2) ∧
    n = (papers.filter (fun p => dateBelowCutoff (cutoffStr today days) p.2)).length ∧
    (saved = true ↔ 0 < n) := by
  unfold cleanup_old_papers at hres
  cases hrem : toRemove (cutoffStr today days) papers with
  | none => rw [hrem] at hres; exact absurd hres (by simp)
  | some rem =>
    rw [hrem] at hres
    simp only [Option.some.injEq, Prod.mk.injEq] at hres
    obtain ⟨hremaining, hn, hsaved⟩ := hres
    have hremEq := toRemove_eq (cutoffStr today days) papers rem hrem
    have hcontains : ∀ p ∈ papers,
        rem.contains p.1 = dateBelowCutoff (cutoffStr today days) p.2 := by
      intro p hp
      cases hq : dateBelowCutoff (cutoffStr today days) p.2 with
      | true =>
        have : p.1 ∈ rem := by
          rw [hremEq]
          exact List.mem_map_of_mem Prod.fst (List.mem_filter.mpr ⟨hp, hq⟩)
        simpa using this
      | false =>
        have : p.1 ∉ rem := by
          rw [hremEq]
          intro hmem
          rcases List.mem_map.mp hmem with ⟨p', hp', hfst⟩
          rcases List.mem_filter.mp hp' with ⟨hp'papers, hq'⟩
          have := List.inj_on_of_nodup_map hnodup hp'papers hp hfst
          rw [this] at hq'
          rw [hq] at hq'
          exact Bool.false_ne_true hq'
        simpa using this
    refine ⟨?_, ?_, ?_⟩
    · rw [← hremaining]
      exact List.filter_congr (fun p hp => by rw [hcontains p hp])
    · rw [← hn, hremEq, List.length_map]
    · rw [← hsaved, ← hn]
      simp

/-- Witness for C7 with `days = 90` from 2026-10-12: the record dated 91
days back (2026-07-13) is removed, the one dated 89 days back (2026-07-15)
is retained, one removal is reported, and the file is written. -/
theorem cleanup_old_papers_spec_witness :
    [(("new" : String), JsonVal.obj [("processed_date", .str "2026-07-15")])] =
      List.filter
        (fun p => !dateBelowCutoff (cutoffStr ⟨2026, 10, 12⟩ 90) p.2)
        [("old", JsonVal.obj [("processed_date", .str "2026-07-13")]),
         ("new", JsonVal.obj [("processed_date", .str "2026-07-15")])] ∧
    1 = (List.filter
        (fun p => dateBelowCutoff (cutoffStr ⟨2026, 10, 12⟩ 90) p.2)
        [("old", JsonVal.obj [("processed_date", .str "2026-07-13")]),
         ("new", JsonVal.obj [("processed_date", .str "2026-07-15")])]).length ∧
    (true = true ↔ 0 < 1) :=
  cleanup_old_papers_spec
    [("old", JsonVal.obj [("processed_date", .str "2026-07-13")]),
     ("new", JsonVal.obj [("processed_date", .str "2026-07-15")])]
    90 ⟨2026, 10, 12⟩
    [("new", JsonVal.obj [("processed_date", .str "2026-07-15")])] 1 true
    (by decide) rfl

theorem strLt_nil_of_ne_nil (l : List Char) (h : l ≠ []) : strLt [] l = true := by
  cases l with
  | nil => exact absurd rfl h
  | cons c cs => rfl

theorem isoChars_ne_nil (d : Date) : isoChars d ≠ [] := by
  intro h
  simp [isoChars] at h

/-- C10: a ledger record with no `processed_date` key compares as the empty
string, which is lexicographically below every cutoff the cleanup can
compute, so the record is always removed. -/
theorem cleanup_missing_date_removed (papers : List (String × JsonVal))
    (days : Nat) (today : Date) (pid : String) (fields : List (String × JsonVal))
    (remaining : List (String × JsonVal)) (n : Nat) (saved : Bool)
    (hmem : (pid, JsonVal.obj fields) ∈ papers)
    (habs : lookupKey fields "processed_date" = none)
    (hres : cleanup_old_papers papers days today = some (remaining, n, saved)) :
    ∀ q ∈ remaining, q.1 ≠ pid := by
  unfold cleanup_old_papers at hres
  cases hrem : toRemove (cutoffStr today days) papers with
  | none => rw [hrem] at hres; exact absurd hres (by simp)
  | some rem =>
    rw [hrem] at hres
    simp only [Option.some.injEq, Prod.mk.injEq] at hres
    obtain ⟨hremaining, -, -⟩ := hres
    have hbelow : dateBelowCutoff (cutoffStr today days) (JsonVal.obj fields) = true := by
      simp only [dateBelowCutoff, procDate, habs]
      exact strLt_nil_of_ne_nil _ (isoChars_ne_nil _)
    have hpidrem : pid ∈ rem := by
      rw [toRemove_eq (cutoffStr today days) papers rem hrem]
      exact List.mem_map_of_mem Prod.fst (List.mem_filter.mpr ⟨hmem, hbelow⟩)
    intro q hq hqpid
    rw [← hremaining] at hq
    rcases List.mem_filter.mp hq with ⟨-, hnc⟩
    rw [hqpid] at hnc
    have : rem.contains pid = true := by simpa using hpidrem
    rw [this] at hnc
    simp at hnc

/-- Witness for C10: a record lacking `processed_date` vanishes from the
surviving records of a cleanup. -/
theorem cleanup_missing_date_removed_witness :
    (("keep" : String), JsonVal.obj [("processed_date", .str "9999-01-01")]).1 ≠
      "nodate" :=
  cleanup_missing_date_removed
    [("nodate", JsonVal.obj [("title", .str "t")]),
     ("keep", JsonVal.obj [("processed_date", .str "9999-01-01")])]
    90 ⟨2026, 10, 12⟩ "nodate" [("title", .str "t")]
    [("keep", JsonVal.obj [("processed_date", .str "9999-01-01")])] 1 true
    (List.mem_cons_self _ _) rfl rfl
    ("keep", JsonVal.obj [("processed_date", .str "9999-01-01")])
    (List.mem_cons_self _ _)

end PaperRadar
